import Mathlib

/-!
Verification development for the mcp-server-cielo-scale repository.

The definitions below are a shallow embedding of the two source files:

* `src/runtimes/python/analyzer.py` — the AST-walking Python code analyzer
  (`PythonCodeAnalyzer`);
* `src/mcp_server.py` — the MCP orchestrator (input validation, language
  dispatch, flow summarization, prompt building, the full pipeline and the
  two bounded result caches).

Modeling conventions:
* Python strings inspected by the code are modeled as `List Char` (sequences
  of code points, matching Python `len`/indexing semantics); short constant
  tags (language names, framework names) are Lean `String`s.
* The Python syntax tree is an inductive type mirroring the `ast` node shapes
  the analyzer's visitor methods and `generic_visit` traverse.  Line-number
  bookkeeping is carried only on function definitions (the only place the
  analyzer reads it).
* Python dicts with fixed literal keys are structures; the `metrics` dict of
  a flow summary is kept as an association list because `build_prompt` looks
  up a key (`"language"`) that `summarize_flow` never writes.
* Python sets (`side_effects`, inferred return types) are insertion-ordered
  duplicate-free lists; claims only use membership and emptiness.
* External effects (HTTP calls, child processes, the string→AST parser,
  wall-clock timestamps) are parameters of the corresponding definitions.
-/

namespace Cielo

/-- Constant literals as carried by `ast.Constant`.  A float constant keeps its
textual rendering only (no claim computes with float values). -/
inductive Const where
  | bool (b : Bool)
  | int (n : Int)
  | float (repr : String)
  | str (s : String)
  | noneLit
  deriving DecidableEq

/-- Python expressions: the `ast` expression nodes the analyzer inspects
(`Name`, `Constant`, `Attribute`, `Subscript`, `Call`) together with the other
expression shapes traversed by `generic_visit` and used by the claims
(`UnaryOp`, `BinOp`, `Compare`, and the four literal collections that
`_infer_return_type` distinguishes). -/
inductive Expr where
  | name (id : String)
  | const (v : Const)
  | attr (value : Expr) (attrName : String)
  | subscript (value : Expr) (slice : Expr)
  | call (func : Expr) (args : List Expr)
  | unaryOp (operand : Expr)
  | binOp (left right : Expr)
  | compare (left : Expr) (comparators : List Expr)
  | listLit (elts : List Expr)
  | dictLit (keys vals : List Expr)
  | tupleLit (elts : List Expr)
  | setLit (elts : List Expr)

/-- One formal parameter (`ast.arg`): its name and optional annotation
expression. -/
structure Arg where
  argName : String
  ann : Option Expr

/-- The `ast.arguments` record, restricted to the four parameter groups
`_extract_function_inputs` reads: positional `args`, `vararg`, `kwarg`, and
`kwonlyargs`. -/
structure Args where
  args : List Arg
  vararg : Option Arg
  kwonlyargs : List Arg
  kwarg : Option Arg

/-- Python statements: the statement nodes with dedicated `visit_` methods in
`PythonCodeAnalyzer` (`FunctionDef`/`AsyncFunctionDef` via the `isAsync` flag,
`If`, `For`, `While`, `Try`, `With`, `Global`, `Nonlocal`) plus the plain
statements reached through `generic_visit` (`Return`, expression statements,
assignments, `pass`).  `tryStmt` handlers are `(type expression?, body)`
pairs, mirroring `ast.ExceptHandler`'s visited children. -/
inductive Stmt where
  | functionDef (fnName : String) (args : Args) (body : List Stmt)
      (returns : Option Expr) (isAsync : Bool) (lineno endLineno : Nat)
  | ifStmt (test : Expr) (body orelse : List Stmt)
  | forStmt (target iter : Expr) (body orelse : List Stmt)
  | whileStmt (test : Expr) (body orelse : List Stmt)
  | tryStmt (body : List Stmt) (handlers : List (Option Expr × List Stmt))
      (orelse finalbody : List Stmt)
  | withStmt (items : List Expr) (body : List Stmt)
  | ret (value : Option Expr)
  | exprStmt (value : Expr)
  | assign (targets : List Expr) (value : Expr)
  | globalStmt (names : List String)
  | nonlocalStmt (names : List String)
  | passStmt

/-- Python `str(value)` on the constants `_get_annotation` can meet. -/
def strOfConst : Const → String
  | .bool true => "True"
  | .bool false => "False"
  | .int n => toString n
  | .float r => r
  | .str s => s
  | .noneLit => "None"

/-- `PythonCodeAnalyzer._get_annotation` on a present annotation expression:
`Name` → its identifier, `Constant` → `str(value)`, dotted and subscripted
forms recursively, anything else → `"Complex"`. -/
def getAnnExpr : Expr → String
  | .name id => id
  | .const v => strOfConst v
  | .attr value a => getAnnExpr value ++ "." ++ a
  | .subscript value slc => getAnnExpr value ++ "[" ++ getAnnExpr slc ++ "]"
  | _ => "Complex"

/-- `PythonCodeAnalyzer._get_annotation` including the `None` case. -/
def getAnn : Option Expr → String
  | Option.none => "Any"
  | some e => getAnnExpr e

/-- One entry of a function's `inputs` list: the `{name, type, kind}` dict. -/
structure ParamInfo where
  pname : String
  ptype : String
  kind : String
  deriving DecidableEq

/-- `PythonCodeAnalyzer._extract_function_inputs`: positional parameters,
then `*args`, then `**kwargs`, then keyword-only parameters, with the
source's per-group annotation defaults (`"Any"`, `"tuple"`, `"dict"`,
`"Any"`). -/
def extractFunctionInputs (a : Args) : List ParamInfo :=
  (a.args.map fun ar => ⟨ar.argName, getAnn ar.ann, "positional"⟩)
  ++ (match a.vararg with
      | some ar => [⟨"*" ++ ar.argName,
          (match ar.ann with | some e => getAnnExpr e | Option.none => "tuple"),
          "varargs"⟩]
      | Option.none => [])
  ++ (match a.kwarg with
      | some ar => [⟨"**" ++ ar.argName,
          (match ar.ann with | some e => getAnnExpr e | Option.none => "dict"),
          "kwargs"⟩]
      | Option.none => [])
  ++ (a.kwonlyargs.map fun ar => ⟨ar.argName, getAnn ar.ann, "keyword_only"⟩)

/-- `PythonCodeAnalyzer._infer_return_type`: maps the literal shape of a
returned expression to a canonical type name, `none` for anything else.  The
`bool` test precedes the `int` test exactly as in the source. -/
def inferReturnType : Expr → Option String
  | .const (.bool _) => some "bool"
  | .const (.int _) => some "int"
  | .const (.float _) => some "float"
  | .const (.str _) => some "str"
  | .const .noneLit => some "None"
  | .listLit _ => some "list"
  | .dictLit _ _ => some "dict"
  | .tupleLit _ => some "tuple"
  | .setLit _ => some "set"
  | _ => Option.none

/-- Appends a string to a list only if absent — the `if x not in acc:
acc.append(x)` idiom used for deduplicated, insertion-ordered collections. -/
def dedupAppend (acc : List String) (x : String) : List String :=
  if x ∈ acc then acc else acc ++ [x]

mutual
/-- Return-statement values found by `ast.walk(node)` inside one statement:
the walk descends into every child, including nested function definitions.
(`ast.walk` enumerates breadth-first; since the collected types go into a
Python set, only the collection's membership matters and a depth-first
enumeration is used here.) -/
def walkReturnsStmt : Stmt → List Expr
  | .functionDef _ _ body _ _ _ _ => walkReturnsStmts body
  | .ifStmt _ b o => walkReturnsStmts b ++ walkReturnsStmts o
  | .forStmt _ _ b o => walkReturnsStmts b ++ walkReturnsStmts o
  | .whileStmt _ b o => walkReturnsStmts b ++ walkReturnsStmts o
  | .tryStmt b hs o f =>
      walkReturnsStmts b ++ walkReturnsHandlers hs
        ++ walkReturnsStmts o ++ walkReturnsStmts f
  | .withStmt _ b => walkReturnsStmts b
  | .ret (some v) => [v]
  | .ret Option.none => []
  | .exprStmt _ => []
  | .assign _ _ => []
  | .globalStmt _ => []
  | .nonlocalStmt _ => []
  | .passStmt => []
termination_by structural st => st

def walkReturnsStmts : List Stmt → List Expr
  | [] => []
  | x :: xs => walkReturnsStmt x ++ walkReturnsStmts xs
termination_by structural l => l

def walkReturnsHandlers : List (Option Expr × List Stmt) → List Expr
  | [] => []
  | (_, b) :: xs => walkReturnsStmts b ++ walkReturnsHandlers xs
termination_by structural l => l
end

/-- `PythonCodeAnalyzer._extract_function_outputs`: the declared return
annotation if present, otherwise the deduplicated inferred types of all
`return <value>` statements found by walking the function body (nested
definitions included, as `ast.walk` does), defaulting to `["Any"]`. -/
def extractFunctionOutputs (returns : Option Expr) (body : List Stmt) :
    List String :=
  match returns with
  | some r => [getAnnExpr r]
  | Option.none =>
      let ts := ((walkReturnsStmts body).filterMap inferReturnType).foldl dedupAppend []
      if ts.isEmpty then ["Any"] else ts

/-- One `func_info` dict built by `visit_FunctionDef`. -/
structure FuncInfo where
  fname : String
  inputs : List ParamInfo
  outputs : List String
  lineStart : Nat
  lineEnd : Nat
  branches : Nat
  localComplexity : Nat
  deriving DecidableEq

/-- The `PythonCodeAnalyzer` instance state: `functions`, the
`current_function` scope pointer, the running totals and the side-effect
set. -/
structure AnalyzerState where
  functions : List FuncInfo
  currentFunction : Option FuncInfo
  totalBranches : Nat
  complexity : Nat
  sideEffects : List String
  deriving DecidableEq

/-- The freshly constructed analyzer (`__init__`). -/
def initState : AnalyzerState := ⟨[], Option.none, 0, 0, []⟩

/-- `self.side_effects.add(e)` — set insertion. -/
def addEffect (s : AnalyzerState) (e : String) : AnalyzerState :=
  if e ∈ s.sideEffects then s else { s with sideEffects := s.sideEffects ++ [e] }

/-- The guarded `if self.current_function:` increment used by `visit_If`,
`visit_For`, `visit_While` and `visit_Try`: adds `n` to both the branch and
local-complexity counters of the current scope, and does nothing outside any
function. -/
def bumpCurrent (s : AnalyzerState) (n : Nat) : AnalyzerState :=
  match s.currentFunction with
  | some fi =>
      let fi2 : FuncInfo :=
        { fi with branches := fi.branches + n,
                  localComplexity := fi.localComplexity + n }
      { s with currentFunction := some fi2 }
  | Option.none => s

/-- The `func_info` dict as first built on entering `visit_FunctionDef`
(lines 40-48): extracted inputs and outputs, the node's line span, zero
branches and baseline complexity 1. -/
def funcEntry (nm : String) (args : Args) (body : List Stmt)
    (returns : Option Expr) (l1 l2 : Nat) : FuncInfo :=
  ⟨nm, extractFunctionInputs args, extractFunctionOutputs returns body,
   l1, l2, 0, 1⟩

/-- The epilogue of `visit_FunctionDef` (lines 57-66): read back the scope
record (the dict mutated in place while it was current), append it to
`functions`, fold its counters into the running totals and restore the
saved scope pointer `prev`. -/
def finishFunc (s : AnalyzerState) (prev : Option FuncInfo) (fi0 : FuncInfo) :
    AnalyzerState :=
  let fi := s.currentFunction.getD fi0
  { s with functions := s.functions ++ [fi],
           totalBranches := s.totalBranches + fi.branches,
           complexity := s.complexity + fi.localComplexity,
           currentFunction := prev }

/-- `visit_Call`'s side-effect classification of the call target
(lines 118-133 of analyzer.py), applied before the generic traversal. -/
def callEffects (s : AnalyzerState) (f : Expr) : AnalyzerState :=
  match f with
  | .name id =>
      if id ∈ ["print", "open", "input", "exec", "eval"] then
        addEffect s "io_operations"
      else if id ∈ ["setattr", "delattr", "globals", "locals"] then
        addEffect s "state_modification"
      else s
  | .attr _ a =>
      if a ∈ ["write", "read", "append", "close", "flush"] then
        addEffect s "io_operations"
      else if a ∈ ["send", "get", "post", "put", "delete"] then
        addEffect s "network_operations"
      else if a ∈ ["commit", "rollback", "execute"] then
        addEffect s "database_operations"
      else s
  | _ => s

mutual
/-- Expression traversal: `visit` on an expression node.  No expression has a
dedicated `visit_` method except `Call`, so traversal recurses through every
child (`generic_visit`), tagging side effects at call sites. -/
def visitExpr (s : AnalyzerState) : Expr → AnalyzerState
  | .name _ => s
  | .const _ => s
  | .attr value _ => visitExpr s value
  | .subscript value slc => visitExpr (visitExpr s value) slc
  | .call f args => visitExprs (visitExpr (callEffects s f) f) args
  | .unaryOp e => visitExpr s e
  | .binOp l r => visitExpr (visitExpr s l) r
  | .compare l cs => visitExprs (visitExpr s l) cs
  | .listLit es => visitExprs s es
  | .dictLit ks vs => visitExprs (visitExprs s ks) vs
  | .tupleLit es => visitExprs s es
  | .setLit es => visitExprs s es
termination_by structural e => e

def visitExprs (s : AnalyzerState) : List Expr → AnalyzerState
  | [] => s
  | e :: es => visitExprs (visitExpr s e) es
termination_by structural l => l
end

mutual
/-- Statement traversal: `visit` on a statement node, dispatching to the
`visit_*` methods of `PythonCodeAnalyzer` and falling back to
`generic_visit` child traversal. -/
def visitStmt (s : AnalyzerState) : Stmt → AnalyzerState
  | .functionDef nm args body returns isAsync l1 l2 =>
      -- visit_FunctionDef: build func_info, save the scope pointer, traverse
      -- the body only, fold the scope's counters into the totals, restore.
      let fi0 := funcEntry nm args body returns l1 l2
      let s3 := finishFunc
        (visitStmts ({ s with currentFunction := some fi0 }) body)
        s.currentFunction fi0
      -- visit_AsyncFunctionDef delegates to visit_FunctionDef and then tags
      -- the async side effect.
      if isAsync then addEffect s3 "async_operations" else s3
  | .ifStmt test body orelse =>
      let s1 := bumpCurrent s 1
      visitStmts (visitStmts (visitExpr s1 test) body) orelse
  | .forStmt target iter body orelse =>
      let s1 := bumpCurrent s 1
      visitStmts (visitStmts (visitExpr (visitExpr s1 target) iter) body) orelse
  | .whileStmt test body orelse =>
      let s1 := bumpCurrent s 1
      visitStmts (visitStmts (visitExpr s1 test) body) orelse
  | .tryStmt body handlers orelse finalbody =>
      -- visit_Try: 1 + one per handler, +1 for a non-empty else, +1 for a
      -- non-empty finally, added to both counters, then child traversal.
      let n := 1 + handlers.length + (if orelse.isEmpty then 0 else 1)
                 + (if finalbody.isEmpty then 0 else 1)
      let s1 := bumpCurrent s n
      visitStmts (visitStmts (visitHandlers (visitStmts s1 body) handlers) orelse) finalbody
  | .withStmt items body =>
      visitStmts (visitExprs (addEffect s "context_managers") items) body
  | .ret v =>
      match v with
      | some e => visitExpr s e
      | Option.none => s
  | .exprStmt e => visitExpr s e
  | .assign targets value => visitExpr (visitExprs s targets) value
  | .globalStmt _ => addEffect s "global_state"
  | .nonlocalStmt _ => addEffect s "nonlocal_state"
  | .passStmt => s
termination_by structural st => st

def visitStmts (s : AnalyzerState) : List Stmt → AnalyzerState
  | [] => s
  | st :: sts => visitStmts (visitStmt s st) sts
termination_by structural l => l

def visitHandlers (s : AnalyzerState) : List (Option Expr × List Stmt) → AnalyzerState
  | [] => s
  | (t, b) :: rest =>
      let s1 := match t with
        | some e => visitExpr s e
        | Option.none => s
      visitHandlers (visitStmts s1 b) rest
termination_by structural l => l
end

/-- `PythonCodeAnalyzer._collect_all_inputs`: the deduplicated first-seen
`"name: type"` strings across all recorded functions. -/
def collectAllInputs (funcs : List FuncInfo) : List String :=
  funcs.foldl
    (fun acc f => f.inputs.foldl
      (fun acc2 inp => dedupAppend acc2 (inp.pname ++ ": " ++ inp.ptype)) acc) []

/-- `PythonCodeAnalyzer._collect_all_outputs`: deduplicated union of all
recorded output type strings. -/
def collectAllOutputs (funcs : List FuncInfo) : List String :=
  funcs.foldl (fun acc f => f.outputs.foldl dedupAppend acc) []

/-- The success-shaped analysis dict returned by
`PythonCodeAnalyzer.analyze`. -/
structure AnalysisOutput where
  functions : List FuncInfo
  inputs : List String
  outputs : List String
  complexity : Nat
  branches : Nat
  sideEffects : List String
  deriving DecidableEq

/-- `PythonCodeAnalyzer.analyze` after a successful `ast.parse`: visit the
module tree (its body statements) and assemble the result dict. -/
def analyzeTree (tree : List Stmt) : AnalysisOutput :=
  let s := visitStmts initState tree
  ⟨s.functions, collectAllInputs s.functions, collectAllOutputs s.functions,
   s.complexity, s.totalBranches, s.sideEffects⟩

/-- `PythonCodeAnalyzer.analyze` including the parse step: the string→AST
parser is external (Python's `ast.parse`), so it enters as its outcome; a
syntax error is converted to the analyzer's error dict. -/
def analyzeSrc (parsed : Except String (List Stmt)) : Except String AnalysisOutput :=
  match parsed with
  | .error e => .error ("Syntax error: " ++ e)
  | .ok tree => .ok (analyzeTree tree)

/-- The syntax tree of the scenario input
`def f(x: int) -> int:\n    if x > 0:\n        return x\n    return -x`
as produced by `ast.parse`. -/
def astC7 : List Stmt :=
  [Stmt.functionDef "f"
    ⟨[⟨"x", some (Expr.name "int")⟩], Option.none, [], Option.none⟩
    [Stmt.ifStmt (Expr.compare (Expr.name "x") [Expr.const (Const.int 0)])
       [Stmt.ret (some (Expr.name "x"))] [],
     Stmt.ret (some (Expr.unaryOp (Expr.name "x")))]
    (some (Expr.name "int")) false 1 4]

/-! ## The MCP server (`src/mcp_server.py`) -/

/-- A single-quote character, used when rendering Python `repr` output. -/
def sq : String := (Char.ofNat 39).toString

/-- Whitespace as recognized by Python's `str.strip` / `str.isspace`,
restricted to the ASCII whitespace characters (the only ones the verified
claims exercise). -/
def isPySpace (c : Char) : Bool :=
  c = ' ' || c = '\t' || c = '\n' || c = '\r' || c = Char.ofNat 11 || c = Char.ofNat 12

/-- `_validate_code_input` (mcp_server.py lines 155-166): rejects the empty
string (`not code`), whitespace-only code (`len(code.strip()) == 0`) and code
with more than 50000 characters (`len(code) > 50000`; Python `len` counts
code points).  `none` means the `{"valid": True}` outcome. -/
def validateCodeInput (code : List Char) : Option String :=
  if code.isEmpty then some "Code must be a non-empty string"
  else if code.all isPySpace then some "Code cannot be empty or only whitespace"
  else if code.length > 50000 then some "Code is too large (max 50KB allowed)"
  else Option.none

/-- UTF-8 byte width of one code point. -/
def utf8CharLen (c : Char) : Nat :=
  if c.toNat < 128 then 1
  else if c.toNat < 2048 then 2
  else if c.toNat < 65536 then 3
  else 4

/-- UTF-8 byte length of a Python string — what "code exceeding 50,000
bytes" would have to measure.  The source's check measures `len(code)`
(code points) instead. -/
def utf8Len (code : List Char) : Nat := (code.map utf8CharLen).sum

/-- Python `str.lower()`, modeled as per-code-point lower-casing (the tags
the server lower-cases are ASCII). -/
def pyLower (s : String) : String := ⟨s.data.map Char.toLower⟩

/-- Python `str.upper()`, modeled as per-code-point upper-casing. -/
def pyUpper (s : String) : String := ⟨s.data.map Char.toUpper⟩

/-- The alias normalization at the top of `_dispatch_analyze`
(lines 69-75): lower-case the tag, then `ts`/`typescript` and
`js`/`javascript` all map to `typescript`. -/
def normalizeLang (language : String) : String :=
  let lang := pyLower language
  if lang = "ts" ∨ lang = "typescript" then "typescript"
  else if lang = "js" ∨ lang = "javascript" then "typescript"
  else lang

/-- The transport mechanism each `_dispatch_analyze` branch uses:
`httpService` for the `requests.post` call of the java branch (line 81),
`childProcess` for the `subprocess.run` calls of the python branch
(line 101) and the typescript branch (line 127).  `inProcess` is the
transport the specification claims for python; no branch uses it. -/
inductive TransportKind where
  | inProcess
  | httpService
  | childProcess
  | unsupportedTag
  deriving DecidableEq

/-- Which transport `_dispatch_analyze` uses for a language tag. -/
def dispatchTransport (language : String) : TransportKind :=
  let lang := normalizeLang language
  if lang = "java" then TransportKind.httpService
  else if lang = "python" then TransportKind.childProcess
  else if lang = "typescript" then TransportKind.childProcess
  else TransportKind.unsupportedTag

/-- The three analyzer backends behind `_dispatch_analyze`, abstracted as
functions from the code to either a classified error payload or an
analysis dict.  Each field stands for one branch's transport interaction
(HTTP request / child process plus the branch's failure classification);
the claims under verification concern routing, not the failure taxonomy. -/
structure BackendMap where
  java : List Char → Except String AnalysisOutput
  python : List Char → Except String AnalysisOutput
  typescript : List Char → Except String AnalysisOutput

/-- `_dispatch_analyze` (lines 67-153): normalize the language tag, route to
the java / python / typescript backend, or report an unsupported tag. -/
def dispatchAnalyzeWith (B : BackendMap) (language : String) (code : List Char) :
    Except String AnalysisOutput :=
  let lang := normalizeLang language
  if lang = "java" then B.java code
  else if lang = "python" then B.python code
  else if lang = "typescript" then B.typescript code
  else .error ("Unsupported language: " ++ sq ++ language ++ sq
      ++ ". Supported languages: java, python, typescript, javascript, ts, js")

/-- Modeled outcome of the python dispatch branch (lines 94-118) when the
child process runs `runtimes/python/analyzer.py`'s `main` to completion:
`main` reads the code from stdin, answers `No code provided` for blank
input, and otherwise prints the JSON of `analyze`; the dispatcher parses
that JSON back.  The stdin/stdout JSON round-trip is modeled as the
identity and the `ast.parse` step enters as its outcome `parsed`. -/
def pythonBackendRun (code : List Char) (parsed : Except String (List Stmt)) :
    Except String AnalysisOutput :=
  if code.all isPySpace then .error "No code provided"
  else analyzeSrc parsed

/-- The normalized analysis dict built by `analyze_function`
(lines 224-238).  The `analysis_metadata` sub-dict (wall-clock timestamp, a
constant version string and a constant `success: True`) is not modeled; the
`raw` field keeps the backend result as the source does.  The backend result
is typed, so the `result.get(..., default)` calls always find their keys. -/
structure Normalized where
  language : String
  functions : List FuncInfo
  inputs : List String
  outputs : List String
  complexity : Nat
  branches : Nat
  sideEffects : List String
  raw : AnalysisOutput
  deriving DecidableEq

/-- `analyze_function` (lines 199-253), parameterized by the dispatch
function so that claims can quantify over backend behavior: validate the
code, return the validation error if any, dispatch, return a backend error
unchanged, otherwise build the normalized dict whose `language` field is
`language.lower()`.  The cache append that follows is modeled separately by
`cacheAppend`. -/
def analyzeFunctionWith
    (dispatch : String → List Char → Except String AnalysisOutput)
    (language : String) (code : List Char) : Except String Normalized :=
  match validateCodeInput code with
  | some e => .error e
  | Option.none =>
    match dispatch language code with
    | .error e => .error e
    | .ok r => .ok
        { language := pyLower language, functions := r.functions,
          inputs := r.inputs, outputs := r.outputs, complexity := r.complexity,
          branches := r.branches, sideEffects := r.sideEffects, raw := r }

/-- One append to a bounded result cache, as performed on `last_analyses`
(lines 242-250) and `last_prompts` (lines 586-593): `cache.append(entry)`
followed by `cache = cache[-10:]` — keep only the most recent 10 entries. -/
def cacheAppend {α : Type} (cache : List α) (entry : α) : List α :=
  let c := cache ++ [entry]
  c.drop (c.length - 10)

/-! ## Flow summarization (`summarize_flow`, lines 256-407) -/

/-- A value of the `metrics` dict.  All values `summarize_flow` writes are
integers; the `str` constructor exists because `build_prompt` reads the dict
expecting a string at key `"language"`. -/
inductive MetricVal where
  | num (n : Nat)
  | str (s : String)
  deriving DecidableEq

/-- The `inputs` field of an entry of `io_matrix` holds a bare string for a
parameter scenario and a list for the `no_parameters` entry. -/
inductive StrOrList where
  | s (v : String)
  | l (v : List String)
  deriving DecidableEq

/-- One entry of `io_matrix`. -/
structure IOCase where
  testCase : String
  inputs : StrOrList
  expectedOutputs : List String
  description : String
  deriving DecidableEq

/-- The flow-summary dict built by `summarize_flow`.  Its `metrics` is kept
as an association list of the keys the source writes, because `build_prompt`
later looks up a key that is never among them. -/
structure FlowSummary where
  overview : String
  keyPaths : List String
  edgeCases : List String
  ioMatrix : List IOCase
  risks : List String
  recommendations : List String
  metrics : List (String × MetricVal)
  deriving DecidableEq

/-- Python `repr` of a list of plain strings, as rendered into f-strings
(`['f']`); escaping inside the items is not modeled. -/
def pyStrList (l : List String) : String :=
  "[" ++ String.intercalate ", " (l.map (fun x => sq ++ x ++ sq)) ++ "]"

/-- Python `str` of an `io_matrix` `inputs` value. -/
def pyRender : StrOrList → String
  | .s v => v
  | .l v => pyStrList v

/-- `chr(10).join(f"<pre> <item>")` as used throughout the prompt
template. -/
def joinLines (pre : String) (items : List String) : String :=
  String.intercalate "\n" (items.map (fun i => pre ++ i))

/-- The `metrics` dict of a flow summary (lines 396-403).  Note there is no
`"language"` key: the language tag appears only inside the rendered
`overview` text. -/
def flowMetrics (analysis : Normalized) : List (String × MetricVal) :=
  [("complexity", MetricVal.num analysis.complexity),
   ("branches", MetricVal.num analysis.branches),
   ("functions_count", MetricVal.num analysis.functions.length),
   ("inputs_count", MetricVal.num analysis.inputs.length),
   ("outputs_count", MetricVal.num analysis.outputs.length),
   ("side_effects_count", MetricVal.num analysis.sideEffects.length)]

/-- `summarize_flow` (lines 256-407) on a successful analysis dict: path
synthesis by branch tier, the edge-case catalog, the IO matrix, the ordered
risk/recommendation heuristics, the overview rendering and the metrics
snapshot, transcribed clause by clause. -/
def summarizeFlow (analysis : Normalized) : FlowSummary :=
  let complexity := analysis.complexity
  let branches := analysis.branches
  let functions := analysis.functions
  let inputs := analysis.inputs
  let outputs := analysis.outputs
  let side_effects := analysis.sideEffects
  let language := analysis.language
  let num_paths := if branches > 0 then max 1 branches else 1
  let key_paths :=
    if branches = 0 then ["linear_path"]
    else if branches ≤ 3 then
      (List.range num_paths).map (fun i => "conditional_path_" ++ toString (i + 1))
    else ["happy_path", "edge_case_paths", "error_handling_paths",
          "complex_branching_" ++ toString branches ++ "_branches"]
  let edge_cases :=
    ["null/None/undefined inputs", "empty collections", "boundary values (0, -1, max)"]
    ++ (if language = "java" then
          ["NullPointerException scenarios", "IndexOutOfBoundsException", "ClassCastException"]
        else if language = "python" then
          ["TypeError scenarios", "ValueError", "KeyError/IndexError"]
        else if language = "typescript" ∨ language = "javascript" then
          ["undefined/null handling", "type coercion edge cases", "async/await errors"]
        else [])
    ++ (if "io_operations" ∈ side_effects then ["IO failures and timeouts"] else [])
    ++ (if "network_operations" ∈ side_effects then ["network connectivity issues"] else [])
    ++ (if "database_operations" ∈ side_effects then
          ["database connection/transaction failures"] else [])
    ++ (if "async_operations" ∈ side_effects then
          ["async operation failures and race conditions"] else [])
    ++ (if complexity > 5 then ["high complexity execution paths"] else [])
  let io_matrix :=
    if inputs.isEmpty then
      [⟨"no_parameters", StrOrList.l ["<no parameters>"],
        (if outputs.isEmpty then ["<define return value>"] else outputs),
        "Function with no parameters"⟩]
    else
      (inputs.take 3).enum.map (fun p =>
        (⟨"scenario_" ++ toString (p.1 + 1), StrOrList.s p.2,
          (if outputs.isEmpty then ["<define based on business logic>"] else outputs),
          "Test case for input: " ++ p.2⟩ : IOCase))
  let voidLike := outputs.isEmpty ∨ outputs = ["void", "None", "undefined"]
  let risks0 :=
    (if branches = 0 then ["no conditional branches detected"]
     else if branches > complexity * 2 then ["high branch count relative to complexity"]
     else [])
    ++ (if voidLike then ["no meaningful return value detected"] else [])
    ++ (if side_effects.isEmpty then []
        else ["side effects detected: " ++ String.intercalate ", " side_effects])
    ++ (if complexity > 10 then ["high cyclomatic complexity"] else [])
  let risks :=
    if risks0.isEmpty then ["low risk - straightforward function structure"] else risks0
  let recommendations :=
    (if branches = 0 then ["verify if boundary testing is needed"]
     else if branches > complexity * 2 then ["consider breaking down into smaller functions"]
     else [])
    ++ (if voidLike then ["verify expected outputs and side effects"] else [])
    ++ (if side_effects.isEmpty then []
        else ["ensure proper mocking/stubbing for side effects in tests"])
    ++ (if complexity > 10 then ["consider refactoring to reduce complexity"] else [])
    ++ (if functions.length > 1 then
          ["test each function separately and integration scenarios"] else [])
  let func_names :=
    if functions.isEmpty then ["<unnamed>"] else functions.map FuncInfo.fname
  let overview :=
    "Language: " ++ pyUpper language ++ ". "
    ++ "Functions analyzed: " ++ pyStrList func_names ++ ". "
    ++ "Input parameters: " ++ toString inputs.length
    ++ " (" ++ String.intercalate ", " (inputs.take 2)
    ++ (if inputs.length > 2 then "..." else "") ++ "). "
    ++ "Return types: " ++ pyStrList outputs ++ ". "
    ++ "Cyclomatic complexity: " ++ toString complexity
    ++ ", Decision branches: " ++ toString branches ++ ". "
    ++ "Side effects: " ++ toString side_effects.length ++ " detected."
  ⟨overview, key_paths, edge_cases, io_matrix, risks, recommendations,
   flowMetrics analysis⟩

/-- `summarize_flow` including its fail-fast on an error-carrying input
(lines 272-273). -/
def summarizeFlowD : Except String Normalized → Except String FlowSummary
  | .error e => .error ("Cannot summarize failed analysis: " ++ e)
  | .ok a => .ok (summarizeFlow a)

/-! ## Prompt building (`build_prompt`, lines 409-596) -/

/-- The `framework_map` table of `build_prompt` (lines 433-438). -/
def framework_map : List (String × String) :=
  [("java", "junit5"), ("python", "pytest"),
   ("typescript", "jest"), ("javascript", "jest")]

/-- Model of `flow.get("metrics", ...).get(key, default)` for a
string-valued key — returns the default when the key is absent (or not a
string). -/
def dictGetStr (d : List (String × MetricVal)) (k dflt : String) : String :=
  match d.lookup k with
  | some (MetricVal.str s) => s
  | _ => dflt

/-- Same lookup for an integer-valued key. -/
def dictGetNum (d : List (String × MetricVal)) (k : String) (dflt : Nat) : Nat :=
  match d.lookup k with
  | some (MetricVal.num n) => n
  | _ => dflt

/-- The `framework_guardrails` table (lines 442-467). -/
def framework_guardrails : List (String × List String) :=
  [("junit5",
    ["Use JUnit 5 annotations (@Test, @BeforeEach, @AfterEach, @DisplayName)",
     "Use assertThat() from AssertJ or assertEquals() from JUnit",
     "Create @Mock objects for dependencies using Mockito",
     "Use @ParameterizedTest for multiple test cases"]),
   ("pytest",
    ["Use pytest fixtures for setup and teardown",
     "Use pytest.parametrize for multiple test cases",
     "Use assert statements for verification",
     "Use unittest.mock for mocking dependencies"]),
   ("jest",
    ["Use describe() and it() blocks for organization",
     "Use beforeEach() and afterEach() for setup/teardown",
     "Use jest.mock() and jest.spyOn() for mocking",
     "Use expect() assertions with appropriate matchers"]),
   ("generic",
    ["Use appropriate testing framework conventions",
     "Include proper setup and teardown",
     "Mock external dependencies",
     "Use descriptive test names"])]

/-- The `base_guardrails` list (lines 470-478). -/
def base_guardrails : List String :=
  ["Generate ONLY executable test code without explanations",
   "Cover ALL execution paths identified in key_paths",
   "Include test cases for ALL edge cases listed",
   "Use exact function/class names from original code - DO NOT rename",
   "Add meaningful assertions for each scenario",
   "Include necessary imports and dependencies",
   "Create one test method per logical scenario"]

/-- The JUnit 5 skeleton appended for `test_framework == "junit5"`
(lines 509-526).  Braces are written with their escape codes. -/
def junit5Skeleton : String :=
  "\n```java\nimport org.junit.jupiter.api.*;\nimport static org.assertj.core.api.Assertions.*;\n// ... other imports\n\nclass FunctionNameTest \x7b\n    @Test\n    @DisplayName(\"should handle normal case\")\n    void shouldHandleNormalCase() \x7b\n        // Arrange\n        // Act  \n        // Assert\n    \x7d\n    \n    // ... more test methods\n\x7d\n```"

/-- The pytest skeleton (lines 528-541). -/
def pytestSkeleton : String :=
  "\n```python\nimport pytest\nfrom unittest.mock import Mock, patch\n# ... other imports\n\nclass TestFunctionName:\n    def test_should_handle_normal_case(self):\n        # Arrange\n        # Act\n        # Assert\n        \n    # ... more test methods\n```"

/-- The jest skeleton (lines 543-557). -/
def jestSkeleton : String :=
  "\n```typescript\nimport \x7b functionName \x7d from " ++ sq ++ "./module" ++ sq
  ++ ";\n// ... other imports\n\ndescribe(" ++ sq ++ "functionName" ++ sq
  ++ ", () => \x7b\n    it(" ++ sq ++ "should handle normal case" ++ sq
  ++ ", () => \x7b\n        // Arrange\n        // Act\n        // Assert\n    \x7d);\n    \n    // ... more test cases\n\x7d);\n```"

/-- Number of words of the rendered prompt — Python `len(prompt.split())`. -/
def pyWordCount (s : String) : Nat :=
  ((s.split Char.isWhitespace).filter (fun w => ¬ w.isEmpty)).length

/-- The prompt/metadata record built by `build_prompt`. -/
structure PromptMetadata where
  pathsToCover : Nat
  edgeCasesToTest : Nat
  ioScenarios : Nat
  complexityLevel : Nat
  deriving DecidableEq

/-- The result dict of a successful `build_prompt` call (lines 571-582). -/
structure PromptArtifact where
  prompt : String
  tokensEst : Nat
  testFramework : String
  guardrails : List String
  metadata : PromptMetadata
  deriving DecidableEq

/-- `build_prompt` (lines 409-596) on a well-formed flow dict: resolve the
framework (for `"auto"`, look up `flow["metrics"]["language"]` — defaulting
to `"unknown"` — in `framework_map`, falling back to `"generic"`), build the
guardrails, render the template, and assemble the artifact.  The token
estimate `int(words * 1.3)` uses a binary float in the source; it is modeled
as `words * 13 / 10` (the claims do not depend on it). -/
def buildPrompt (flow : FlowSummary) (test_framework : String) : PromptArtifact :=
  let language := dictGetStr flow.metrics "language" "unknown"
  let tf :=
    if test_framework = "auto" then
      (framework_map.lookup language).getD "generic"
    else test_framework
  let guardrails := base_guardrails ++ (framework_guardrails.lookup tf).getD []
  let promptText :=
    "You are an expert test generation agent specialized in " ++ tf
    ++ " testing framework.\n\nANALYSIS SUMMARY:\n" ++ flow.overview
    ++ "\n\nEXECUTION PATHS TO COVER:\n" ++ joinLines "✓ " flow.keyPaths
    ++ "\n\nCRITICAL EDGE CASES:\n" ++ joinLines "⚠ " flow.edgeCases
    ++ "\n\nINPUT/OUTPUT TEST MATRIX:\n"
    ++ String.intercalate "\n" (flow.ioMatrix.map (fun io =>
         "📊 " ++ io.description ++ ": " ++ pyRender io.inputs
         ++ " → " ++ pyStrList io.expectedOutputs))
    ++ "\n\nIDENTIFIED RISKS & RECOMMENDATIONS:\n" ++ joinLines "🔍 " flow.risks
    ++ "\n" ++ joinLines "💡 " flow.recommendations
    ++ "\n\nTEST GENERATION RULES:\n" ++ joinLines "• " guardrails
    ++ "\n\nEXPECTED OUTPUT FORMAT:\n"
  let promptText := promptText
    ++ (if tf = "junit5" then junit5Skeleton
        else if tf = "pytest" then pytestSkeleton
        else if tf = "jest" then jestSkeleton
        else "")
  let promptText := promptText
    ++ "\n\nFINAL INSTRUCTIONS:\n- Focus on the " ++ toString flow.keyPaths.length
    ++ " execution paths and " ++ toString flow.edgeCases.length
    ++ " edge cases\n- Ensure " ++ toString (dictGetNum flow.metrics "branches" 0)
    ++ " decision branches are tested\n- Handle "
    ++ toString (dictGetNum flow.metrics "side_effects_count" 0)
    ++ " side effects appropriately\n- Generate complete, compilable, and executable test code"
  let tokens_est := pyWordCount promptText * 13 / 10
  { prompt := promptText.trim, tokensEst := tokens_est, testFramework := tf,
    guardrails := guardrails,
    metadata :=
      { pathsToCover := flow.keyPaths.length,
        edgeCasesToTest := flow.edgeCases.length,
        ioScenarios := flow.ioMatrix.length,
        complexityLevel := dictGetNum flow.metrics "complexity" 0 } }

/-- `build_prompt` including its fail-fast on an error-carrying flow
(lines 427-428). -/
def buildPromptD (test_framework : String) :
    Except String FlowSummary → Except String PromptArtifact
  | .error e => .error ("Cannot build prompt from failed flow analysis: " ++ e)
  | .ok f => .ok (buildPrompt f test_framework)

/-! ## The full pipeline (`run_full_pipeline`, lines 598-699) -/

/-- Outcome of calling one of the stage functions inside `run_full_pipeline`:
either the function returned a dict (`returns`, with `Except.error` standing
for a dict carrying an `"error"` key) or the call raised an exception
(`raises`) — the possibility the stage-2/3 `try`/`except` blocks guard
against. -/
inductive StageCall (α : Type) where
  | returns (value : Except String α)
  | raises (msg : String)

/-- The `meta` sub-dict of a pipeline result, restricted to the fields the
claims are about.  Wall-clock timing fields and the echo fields
(`language`, `test_framework`, `total_steps`) are not modeled. -/
structure PMeta where
  stepsCompleted : Nat
  success : Bool
  deriving DecidableEq

/-- Decidable equality for `Except` values, needed to evaluate concrete
pipeline outcomes. -/
instance {ε α : Type} [DecidableEq ε] [DecidableEq α] : DecidableEq (Except ε α) :=
  fun x y =>
    match x, y with
    | .error a, .error b =>
        if h : a = b then isTrue (by rw [h])
        else isFalse (by intro hc; cases hc; exact h rfl)
    | .ok a, .ok b =>
        if h : a = b then isTrue (by rw [h])
        else isFalse (by intro hc; cases hc; exact h rfl)
    | .error _, .ok _ => isFalse (by intro hc; cases hc)
    | .ok _, .error _ => isFalse (by intro hc; cases hc)

/-- The dict returned by `run_full_pipeline`.  The `flow` and `prompt` slots
are `Option`s because the early return after a stage-1 failure (lines
631-642) omits those keys.  The `runtime_status` snapshot is summarized by
the `warnings` it produces. -/
structure PipelineResult where
  analysis : Except String Normalized
  flow : Option (Except String FlowSummary)
  prompt : Option (Except String PromptArtifact)
  errors : List String
  warnings : List String
  meta : PMeta
  deriving DecidableEq

/-- `run_full_pipeline` (lines 598-699), parameterized over the outcomes of
the external interactions so that claims quantify over them:

* `avail` — whether `_check_runtime_availability` reports the requested
  language's runtime (line 623);
* `analysisRes` — the return value of `analyze_function` (stage 1, line 628;
  this call is not wrapped in `try`);
* `flowCall` — the behavior of the `summarize_flow(analysis)` call
  (stage 2, lines 646-652, wrapped in `try`/`except`);
* `promptCall` — the behavior of the `build_prompt(flow, ...)` call
  (stage 3, lines 655-666, wrapped in `try`/`except`; skipped with a
  synthetic error when the flow carries an error).

Stage-1 failure returns immediately with `steps_completed = 0`.  Afterwards
`steps_completed` adds one per stage whose dict has no `"error"` key and
`success` is `steps_completed == 3 and len(errors) == 0`. -/
def runFullPipelineWith (avail : Bool) (language : String)
    (analysisRes : Except String Normalized)
    (flowCall : Normalized → StageCall FlowSummary)
    (promptCall : FlowSummary → StageCall PromptArtifact) : PipelineResult :=
  let warnings :=
    if avail then [] else ["Runtime for " ++ language ++ " may not be available"]
  match analysisRes with
  | .error e =>
      { analysis := .error e, flow := Option.none, prompt := Option.none,
        errors := ["Analysis failed: " ++ e], warnings := warnings,
        meta := { stepsCompleted := 0, success := false } }
  | .ok a =>
      let flowPair : Except String FlowSummary × List String :=
        match flowCall a with
        | .returns (.ok f) => (.ok f, [])
        | .returns (.error e) => (.error e, ["Flow summary failed: " ++ e])
        | .raises m =>
            (.error ("Flow summary failed: " ++ m),
             ["Flow summary exception: " ++ m])
      let promptPair : Except String PromptArtifact × List String :=
        match flowPair.1 with
        | .ok f =>
            match promptCall f with
            | .returns (.ok p) => (.ok p, [])
            | .returns (.error e) => (.error e, ["Prompt build failed: " ++ e])
            | .raises m =>
                (.error ("Prompt build failed: " ++ m),
                 ["Prompt generation exception: " ++ m])
        | .error _ =>
            (.error "Skipped due to flow summary failure",
             ["Prompt generation skipped"])
      let errors := flowPair.2 ++ promptPair.2
      let steps := 1
        + (match flowPair.1 with | .ok _ => 1 | .error _ => 0)
        + (match promptPair.1 with | .ok _ => 1 | .error _ => 0)
      { analysis := .ok a, flow := some flowPair.1, prompt := some promptPair.1,
        errors := errors, warnings := warnings,
        meta := { stepsCompleted := steps,
                  success := steps == 3 && errors.isEmpty } }

/-- Number of stage slots of a pipeline result that carry no error — what
lines 671-677 count. -/
def stageOkCount (r : PipelineResult) : Nat :=
  (match r.analysis with | .ok _ => 1 | .error _ => 0)
  + (match r.flow with | some (.ok _) => 1 | _ => 0)
  + (match r.prompt with | some (.ok _) => 1 | _ => 0)

/-! ## Specification functions for the analyzer traversal

Pure counting functions against which the stateful traversal is proved:
`stmtOwn` is the number of branch units a statement contributes to its
innermost enclosing function (stopping at nested function definitions, which
open their own scope), and `specFuncsStmt` lists, in traversal (postorder)
order, the `FuncInfo` entries the analyzer records for every function
definition inside a statement. -/

/-- The branch-unit contribution of a `try` node itself: one, plus one per
handler, plus one for a non-empty else, plus one for a non-empty finally. -/
def tryUnits (handlers : List (Option Expr × List Stmt)) (orelse finalbody : List Stmt) : Nat :=
  1 + handlers.length + (if orelse.isEmpty then 0 else 1)
    + (if finalbody.isEmpty then 0 else 1)

mutual
/-- Branch units a statement contributes to the innermost enclosing
function scope. -/
def stmtOwn : Stmt → Nat
  | .functionDef _ _ _ _ _ _ _ => 0
  | .ifStmt _ b o => 1 + stmtsOwn b + stmtsOwn o
  | .forStmt _ _ b o => 1 + stmtsOwn b + stmtsOwn o
  | .whileStmt _ b o => 1 + stmtsOwn b + stmtsOwn o
  | .tryStmt b hs o f =>
      tryUnits hs o f + stmtsOwn b + handlersOwn hs + stmtsOwn o + stmtsOwn f
  | .withStmt _ b => stmtsOwn b
  | .ret _ => 0
  | .exprStmt _ => 0
  | .assign _ _ => 0
  | .globalStmt _ => 0
  | .nonlocalStmt _ => 0
  | .passStmt => 0
termination_by structural st => st

def stmtsOwn : List Stmt → Nat
  | [] => 0
  | x :: xs => stmtOwn x + stmtsOwn xs
termination_by structural l => l

def handlersOwn : List (Option Expr × List Stmt) → Nat
  | [] => 0
  | (_, b) :: xs => stmtsOwn b + handlersOwn xs
termination_by structural l => l
end

mutual
/-- The `FuncInfo` entries the traversal appends for the function
definitions inside one statement, in the order they are appended: for a
definition, the entries of its body (inner definitions finish first) and
then its own entry with `branches = stmtsOwn body` and
`local_complexity = 1 + stmtsOwn body`. -/
def specFuncsStmt : Stmt → List FuncInfo
  | .functionDef nm args body returns _ l1 l2 =>
      specFuncsStmts body
        ++ [⟨nm, extractFunctionInputs args, extractFunctionOutputs returns body,
             l1, l2, stmtsOwn body, 1 + stmtsOwn body⟩]
  | .ifStmt _ b o => specFuncsStmts b ++ specFuncsStmts o
  | .forStmt _ _ b o => specFuncsStmts b ++ specFuncsStmts o
  | .whileStmt _ b o => specFuncsStmts b ++ specFuncsStmts o
  | .tryStmt b hs o f =>
      specFuncsStmts b ++ specFuncsHandlers hs
        ++ specFuncsStmts o ++ specFuncsStmts f
  | .withStmt _ b => specFuncsStmts b
  | .ret _ => []
  | .exprStmt _ => []
  | .assign _ _ => []
  | .globalStmt _ => []
  | .nonlocalStmt _ => []
  | .passStmt => []
termination_by structural st => st

def specFuncsStmts : List Stmt → List FuncInfo
  | [] => []
  | x :: xs => specFuncsStmt x ++ specFuncsStmts xs
termination_by structural l => l

def specFuncsHandlers : List (Option Expr × List Stmt) → List FuncInfo
  | [] => []
  | (_, b) :: xs => specFuncsStmts b ++ specFuncsHandlers xs
termination_by structural l => l
end

/-- Adds `n` branch units to a scope record — the effect of counted
constructs on the current function, always equal on both counters. -/
def addB (fi : FuncInfo) (n : Nat) : FuncInfo :=
  { fi with branches := fi.branches + n,
            localComplexity := fi.localComplexity + n }

/-- Sum of recorded branch counts. -/
def branchSum (l : List FuncInfo) : Nat := (l.map FuncInfo.branches).sum

/-- Sum of recorded local complexities. -/
def lcSum (l : List FuncInfo) : Nat := (l.map FuncInfo.localComplexity).sum

theorem addB_zero (fi : FuncInfo) : addB fi 0 = fi := by
  cases fi; simp [addB]

theorem addB_addB (fi : FuncInfo) (m n : Nat) :
    addB (addB fi m) n = addB fi (m + n) := by
  cases fi; simp [addB, Nat.add_assoc]

theorem branchSum_append (l₁ l₂ : List FuncInfo) :
    branchSum (l₁ ++ l₂) = branchSum l₁ + branchSum l₂ := by
  simp [branchSum]

theorem lcSum_append (l₁ l₂ : List FuncInfo) :
    lcSum (l₁ ++ l₂) = lcSum l₁ + lcSum l₂ := by
  simp [lcSum]

/-- The analyzer-state components that expression traversal never changes:
everything except the side-effect set. -/
def coreEq (s s' : AnalyzerState) : Prop :=
  s'.functions = s.functions ∧ s'.currentFunction = s.currentFunction
  ∧ s'.totalBranches = s.totalBranches ∧ s'.complexity = s.complexity

theorem coreEq_refl (s : AnalyzerState) : coreEq s s := ⟨rfl, rfl, rfl, rfl⟩

theorem coreEq_trans {s t u : AnalyzerState} (h1 : coreEq s t) (h2 : coreEq t u) :
    coreEq s u := by
  obtain ⟨a1, b1, c1, d1⟩ := h1
  obtain ⟨a2, b2, c2, d2⟩ := h2
  exact ⟨a2.trans a1, b2.trans b1, c2.trans c1, d2.trans d1⟩

theorem addEffect_core (s : AnalyzerState) (e : String) : coreEq s (addEffect s e) := by
  unfold addEffect
  split
  · exact coreEq_refl s
  · exact ⟨rfl, rfl, rfl, rfl⟩

theorem callEffects_core (s : AnalyzerState) (f : Expr) : coreEq s (callEffects s f) := by
  cases f <;> simp only [callEffects] <;>
    first
      | exact coreEq_refl s
      | (split
         · exact addEffect_core s _
         · split
           · exact addEffect_core s _
           · first
               | exact coreEq_refl s
               | (split
                  · exact addEffect_core s _
                  · exact coreEq_refl s))

mutual
theorem visitExpr_core (s : AnalyzerState) (e : Expr) : coreEq s (visitExpr s e) := by
  cases e with
  | name id => exact coreEq_refl s
  | const v => exact coreEq_refl s
  | attr v a =>
      simp only [visitExpr]
      exact visitExpr_core s v
  | subscript v slc =>
      simp only [visitExpr]
      exact coreEq_trans (visitExpr_core s v) (visitExpr_core _ slc)
  | call f args =>
      simp only [visitExpr]
      exact coreEq_trans (coreEq_trans (callEffects_core s f) (visitExpr_core _ f))
        (visitExprs_core _ args)
  | unaryOp op =>
      simp only [visitExpr]
      exact visitExpr_core s op
  | binOp l r =>
      simp only [visitExpr]
      exact coreEq_trans (visitExpr_core s l) (visitExpr_core _ r)
  | compare l cs =>
      simp only [visitExpr]
      exact coreEq_trans (visitExpr_core s l) (visitExprs_core _ cs)
  | listLit es =>
      simp only [visitExpr]
      exact visitExprs_core s es
  | dictLit ks vs =>
      simp only [visitExpr]
      exact coreEq_trans (visitExprs_core s ks) (visitExprs_core _ vs)
  | tupleLit es =>
      simp only [visitExpr]
      exact visitExprs_core s es
  | setLit es =>
      simp only [visitExpr]
      exact visitExprs_core s es
termination_by structural e

theorem visitExprs_core (s : AnalyzerState) (es : List Expr) :
    coreEq s (visitExprs s es) := by
  cases es with
  | nil => exact coreEq_refl s
  | cons e rest =>
      simp only [visitExprs]
      exact coreEq_trans (visitExpr_core s e) (visitExprs_core _ rest)
termination_by structural es
end

/-- The step contract of the statement traversal relative to a start state
`s`: the traversal appends `new` function entries, adds `own` units to both
counters of the current scope (if any), and grows the totals by the new
entries' recorded counters. -/
def stepSpec (s s' : AnalyzerState) (new : List FuncInfo) (own : Nat) : Prop :=
  s'.functions = s.functions ++ new
  ∧ s'.currentFunction = s.currentFunction.map (fun fi => addB fi own)
  ∧ s'.totalBranches = s.totalBranches + branchSum new
  ∧ s'.complexity = s.complexity + lcSum new

theorem stepSpec_of_core {s s' : AnalyzerState} (h : coreEq s s') :
    stepSpec s s' [] 0 := by
  obtain ⟨h1, h2, h3, h4⟩ := h
  refine ⟨by simp [h1], ?_, by simp [h3, branchSum], by simp [h4, lcSum]⟩
  rw [h2]
  cases s.currentFunction <;> simp [addB_zero]

theorem stepSpec_trans {s t u : AnalyzerState} {new1 new2 : List FuncInfo}
    {own1 own2 : Nat} (h1 : stepSpec s t new1 own1) (h2 : stepSpec t u new2 own2) :
    stepSpec s u (new1 ++ new2) (own1 + own2) := by
  obtain ⟨a1, b1, c1, d1⟩ := h1
  obtain ⟨a2, b2, c2, d2⟩ := h2
  refine ⟨?_, ?_, ?_, ?_⟩
  · rw [a2, a1, List.append_assoc]
  · rw [b2, b1]
    cases s.currentFunction <;> simp [addB_addB]
  · rw [c2, c1, branchSum_append]
    omega
  · rw [d2, d1, lcSum_append]
    omega

theorem stepSpec_congr {s s' : AnalyzerState} {new new' : List FuncInfo}
    {own own' : Nat} (h : stepSpec s s' new own) (hn : new = new')
    (ho : own = own') : stepSpec s s' new' own' := by
  rw [← hn, ← ho]
  exact h

theorem bumpCurrent_step (s : AnalyzerState) (n : Nat) :
    stepSpec s (bumpCurrent s n) [] n := by
  unfold stepSpec bumpCurrent
  cases hc : s.currentFunction with
  | none => simp [hc, branchSum, lcSum]
  | some fi => simp [hc, branchSum, lcSum, addB]

theorem finishFunc_step (s : AnalyzerState) (fi0 : FuncInfo) {s2 : AnalyzerState}
    {fi1 : FuncInfo} {new : List FuncInfo}
    (hf : s2.functions = s.functions ++ new)
    (hc : s2.currentFunction = some fi1)
    (htb : s2.totalBranches = s.totalBranches + branchSum new)
    (hcx : s2.complexity = s.complexity + lcSum new) :
    stepSpec s (finishFunc s2 s.currentFunction fi0) (new ++ [fi1]) 0 := by
  unfold finishFunc stepSpec
  rw [hc]
  simp only [Option.getD_some]
  refine ⟨?_, ?_, ?_, ?_⟩
  · rw [hf, List.append_assoc]
  · cases hcf : s.currentFunction <;> simp [addB_zero]
  · rw [htb, branchSum_append]
    simp [branchSum, Nat.add_assoc]
  · rw [hcx, lcSum_append]
    simp [lcSum, Nat.add_assoc]

mutual
theorem visitStmt_spec (s : AnalyzerState) (st : Stmt) :
    stepSpec s (visitStmt s st) (specFuncsStmt st) (stmtOwn st) := by
  cases st with
  | functionDef nm args body returns isAsync l1 l2 =>
      simp only [visitStmt, specFuncsStmt, stmtOwn]
      obtain ⟨hf, hc, htb, hcx⟩ := visitStmts_spec ({ s with currentFunction := some (funcEntry nm args body returns l1 l2) }) body
      simp only [Option.map_some'] at hc
      have h := finishFunc_step s (funcEntry nm args body returns l1 l2) hf hc htb hcx
      have hentry : addB (funcEntry nm args body returns l1 l2) (stmtsOwn body)
          = ⟨nm, extractFunctionInputs args, extractFunctionOutputs returns body,
             l1, l2, stmtsOwn body, 1 + stmtsOwn body⟩ := by
        simp [addB, funcEntry]
      rw [hentry] at h
      cases isAsync with
      | false => simpa using h
      | true =>
          simp only [if_true]
          exact stepSpec_congr
            (stepSpec_trans h (stepSpec_of_core (addEffect_core _ _)))
            (by simp) (by simp)
  | ifStmt t b o =>
      simp only [visitStmt, specFuncsStmt, stmtOwn]
      exact stepSpec_congr
        (stepSpec_trans
          (stepSpec_trans
            (stepSpec_trans (bumpCurrent_step s 1)
              (stepSpec_of_core (visitExpr_core _ t)))
            (visitStmts_spec _ b))
          (visitStmts_spec _ o))
        (by simp) (by omega)
  | forStmt tg it b o =>
      simp only [visitStmt, specFuncsStmt, stmtOwn]
      exact stepSpec_congr
        (stepSpec_trans
          (stepSpec_trans
            (stepSpec_trans
              (stepSpec_trans (bumpCurrent_step s 1)
                (stepSpec_of_core (visitExpr_core _ tg)))
              (stepSpec_of_core (visitExpr_core _ it)))
            (visitStmts_spec _ b))
          (visitStmts_spec _ o))
        (by simp) (by omega)
  | whileStmt t b o =>
      simp only [visitStmt, specFuncsStmt, stmtOwn]
      exact stepSpec_congr
        (stepSpec_trans
          (stepSpec_trans
            (stepSpec_trans (bumpCurrent_step s 1)
              (stepSpec_of_core (visitExpr_core _ t)))
            (visitStmts_spec _ b))
          (visitStmts_spec _ o))
        (by simp) (by omega)
  | tryStmt b hs o f =>
      simp only [visitStmt, specFuncsStmt, stmtOwn]
      exact stepSpec_congr
        (stepSpec_trans
          (stepSpec_trans
            (stepSpec_trans
              (stepSpec_trans (bumpCurrent_step s _)
                (visitStmts_spec _ b))
              (visitHandlers_spec _ hs))
            (visitStmts_spec _ o))
          (visitStmts_spec _ f))
        (by simp) (by simp only [tryUnits])
  | withStmt items b =>
      simp only [visitStmt, specFuncsStmt, stmtOwn]
      exact stepSpec_congr
        (stepSpec_trans
          (stepSpec_trans (stepSpec_of_core (addEffect_core s _))
            (stepSpec_of_core (visitExprs_core _ items)))
          (visitStmts_spec _ b))
        (by simp) (by omega)
  | ret v =>
      cases v with
      | none =>
          simp only [visitStmt, specFuncsStmt, stmtOwn]
          exact stepSpec_of_core (coreEq_refl s)
      | some e =>
          simp only [visitStmt, specFuncsStmt, stmtOwn]
          exact stepSpec_of_core (visitExpr_core s e)
  | exprStmt e =>
      simp only [visitStmt, specFuncsStmt, stmtOwn]
      exact stepSpec_of_core (visitExpr_core s e)
  | assign tgts v =>
      simp only [visitStmt, specFuncsStmt, stmtOwn]
      exact stepSpec_congr
        (stepSpec_trans (stepSpec_of_core (visitExprs_core s tgts))
          (stepSpec_of_core (visitExpr_core _ v)))
        (by simp) (by omega)
  | globalStmt ns =>
      simp only [visitStmt, specFuncsStmt, stmtOwn]
      exact stepSpec_of_core (addEffect_core s _)
  | nonlocalStmt ns =>
      simp only [visitStmt, specFuncsStmt, stmtOwn]
      exact stepSpec_of_core (addEffect_core s _)
  | passStmt =>
      simp only [visitStmt, specFuncsStmt, stmtOwn]
      exact stepSpec_of_core (coreEq_refl s)
termination_by structural st

theorem visitStmts_spec (s : AnalyzerState) (l : List Stmt) :
    stepSpec s (visitStmts s l) (specFuncsStmts l) (stmtsOwn l) := by
  cases l with
  | nil =>
      simp only [visitStmts, specFuncsStmts, stmtsOwn]
      exact stepSpec_of_core (coreEq_refl s)
  | cons st rest =>
      simp only [visitStmts, specFuncsStmts, stmtsOwn]
      exact stepSpec_trans (visitStmt_spec s st) (visitStmts_spec _ rest)
termination_by structural l

theorem visitHandlers_spec (s : AnalyzerState) (hs : List (Option Expr × List Stmt)) :
    stepSpec s (visitHandlers s hs) (specFuncsHandlers hs) (handlersOwn hs) := by
  cases hs with
  | nil =>
      simp only [visitHandlers, specFuncsHandlers, handlersOwn]
      exact stepSpec_of_core (coreEq_refl s)
  | cons h rest =>
      obtain ⟨t, b⟩ := h
      simp only [visitHandlers, specFuncsHandlers, handlersOwn]
      have htop : stepSpec s
          (match t with | some e => visitExpr s e | Option.none => s) [] 0 := by
        cases t with
        | none => exact stepSpec_of_core (coreEq_refl s)
        | some e => exact stepSpec_of_core (visitExpr_core s e)
      exact stepSpec_congr
        (stepSpec_trans (stepSpec_trans htop (visitStmts_spec _ b))
          (visitHandlers_spec _ rest))
        (by simp) (by omega)
termination_by structural hs
end

mutual
theorem specFuncsStmt_lc (st : Stmt) :
    ∀ fi ∈ specFuncsStmt st, fi.localComplexity = 1 + fi.branches := by
  cases st with
  | functionDef nm args body returns isAsync l1 l2 =>
      simp only [specFuncsStmt]
      intro fi hfi
      rcases List.mem_append.mp hfi with h | h
      · exact specFuncsStmts_lc body fi h
      · rw [List.mem_singleton.mp h]
  | ifStmt t b o =>
      simp only [specFuncsStmt]
      intro fi hfi
      rcases List.mem_append.mp hfi with h | h
      · exact specFuncsStmts_lc b fi h
      · exact specFuncsStmts_lc o fi h
  | forStmt tg it b o =>
      simp only [specFuncsStmt]
      intro fi hfi
      rcases List.mem_append.mp hfi with h | h
      · exact specFuncsStmts_lc b fi h
      · exact specFuncsStmts_lc o fi h
  | whileStmt t b o =>
      simp only [specFuncsStmt]
      intro fi hfi
      rcases List.mem_append.mp hfi with h | h
      · exact specFuncsStmts_lc b fi h
      · exact specFuncsStmts_lc o fi h
  | tryStmt b hs o f =>
      simp only [specFuncsStmt]
      intro fi hfi
      rcases List.mem_append.mp hfi with h | h
      · rcases List.mem_append.mp h with h2 | h2
        · rcases List.mem_append.mp h2 with h3 | h3
          · exact specFuncsStmts_lc b fi h3
          · exact specFuncsHandlers_lc hs fi h3
        · exact specFuncsStmts_lc o fi h2
      · exact specFuncsStmts_lc f fi h
  | withStmt items b =>
      simp only [specFuncsStmt]
      exact specFuncsStmts_lc b
  | ret v => simp [specFuncsStmt]
  | exprStmt e => simp [specFuncsStmt]
  | assign tgts v => simp [specFuncsStmt]
  | globalStmt ns => simp [specFuncsStmt]
  | nonlocalStmt ns => simp [specFuncsStmt]
  | passStmt => simp [specFuncsStmt]
termination_by structural st

theorem specFuncsStmts_lc (l : List Stmt) :
    ∀ fi ∈ specFuncsStmts l, fi.localComplexity = 1 + fi.branches := by
  cases l with
  | nil => simp [specFuncsStmts]
  | cons st rest =>
      simp only [specFuncsStmts]
      intro fi hfi
      rcases List.mem_append.mp hfi with h | h
      · exact specFuncsStmt_lc st fi h
      · exact specFuncsStmts_lc rest fi h
termination_by structural l

theorem specFuncsHandlers_lc (hs : List (Option Expr × List Stmt)) :
    ∀ fi ∈ specFuncsHandlers hs, fi.localComplexity = 1 + fi.branches := by
  cases hs with
  | nil => simp [specFuncsHandlers]
  | cons h rest =>
      obtain ⟨t, b⟩ := h
      simp only [specFuncsHandlers]
      intro fi hfi
      rcases List.mem_append.mp hfi with h2 | h2
      · exact specFuncsStmts_lc b fi h2
      · exact specFuncsHandlers_lc rest fi h2
termination_by structural hs
end

/-! ## The claims -/

/-- C7: analyzing the input
`def f(x: int) -> int:\n    if x > 0:\n        return x\n    return -x`
yields exactly one function, named `f`, with `branches = 1`,
`complexity = 2`, `inputs = ["x: int"]`, `outputs = ["int"]` and an empty
side-effect set. -/
theorem c7_scenario_simple_function :
    (analyzeTree astC7).functions.map FuncInfo.fname = ["f"]
    ∧ (analyzeTree astC7).branches = 1
    ∧ (analyzeTree astC7).complexity = 2
    ∧ (analyzeTree astC7).inputs = ["x: int"]
    ∧ (analyzeTree astC7).outputs = ["int"]
    ∧ (analyzeTree astC7).sideEffects = [] := by
  refine ⟨?_, ?_, ?_, ?_, ?_, ?_⟩ <;> decide

/-- C8: for every exception-handling (`try`) statement visited inside a
function scope, the analyzer adds exactly
`1 + (number of handler clauses) + (1 if an else-clause is present) +
(1 if a finally-clause is present)` — the value `tryUnits` — to the current
function's branch counter for the try node itself, over and above what the
statements nested in the try contribute by their own rules, and `addB` adds
the identical amount to the complexity counter. -/
theorem c8_try_accounting (s : AnalyzerState) (fi : FuncInfo) (b : List Stmt)
    (hs : List (Option Expr × List Stmt)) (o f : List Stmt)
    (hcur : s.currentFunction = some fi) :
    (visitStmt s (Stmt.tryStmt b hs o f)).currentFunction
      = some (addB fi (tryUnits hs o f
          + (stmtsOwn b + handlersOwn hs + stmtsOwn o + stmtsOwn f))) := by
  obtain ⟨-, hc, -, -⟩ := visitStmt_spec s (Stmt.tryStmt b hs o f)
  rw [hc, hcur, Option.map_some']
  have harith : stmtOwn (Stmt.tryStmt b hs o f)
      = tryUnits hs o f
        + (stmtsOwn b + handlersOwn hs + stmtsOwn o + stmtsOwn f) := by
    simp only [stmtOwn]
    omega
  rw [harith]

/-- Witness for C8: a concrete try statement with one handler, a non-empty
else and no finally, visited in a fresh scope, adds 1 + 1 + 1 + 0 = 3 to
both counters. -/
theorem c8_try_accounting_witness :
    (visitStmt ⟨[], some ⟨"g", [], [], 1, 1, 0, 1⟩, 0, 0, []⟩
        (Stmt.tryStmt [Stmt.passStmt] [(Option.none, [Stmt.passStmt])]
          [Stmt.passStmt] [])).currentFunction
      = some (⟨"g", [], [], 1, 1, 3, 4⟩ : FuncInfo) := by
  have h := c8_try_accounting ⟨[], some ⟨"g", [], [], 1, 1, 0, 1⟩, 0, 0, []⟩
    ⟨"g", [], [], 1, 1, 0, 1⟩ [Stmt.passStmt] [(Option.none, [Stmt.passStmt])]
    [Stmt.passStmt] [] rfl
  rw [h]
  decide

/-- C10: for every parseable input, each function definition — nested ones
included — is recorded as its own `FunctionInfo` entry, listed in the order
the traversal appends them (`specFuncsStmt` lists a definition's inner
entries before the definition's own entry, i.e. an inner function is
appended before its enclosing function finishes); every counted construct is
attributed to the innermost enclosing function only (`stmtsOwn`, which the
recorded `branches` equal, stops at nested definitions); the result totals
fold every function's `branches` and `local_complexity` exactly once; and no
inner function's metrics leak into its enclosing function's counts
(`local_complexity = 1 + branches` per entry, branches counted from the
function's own body only). -/
theorem c10_nested_functions (tree : List Stmt) :
    (analyzeTree tree).functions = specFuncsStmts tree
    ∧ (analyzeTree tree).branches = branchSum (specFuncsStmts tree)
    ∧ (analyzeTree tree).complexity = lcSum (specFuncsStmts tree)
    ∧ ∀ fi ∈ (analyzeTree tree).functions,
        fi.localComplexity = 1 + fi.branches := by
  obtain ⟨hf, -, htb, hcx⟩ := visitStmts_spec initState tree
  have hfuncs : (analyzeTree tree).functions = specFuncsStmts tree := by
    show (visitStmts initState tree).functions = specFuncsStmts tree
    rw [hf]
    rfl
  refine ⟨hfuncs, ?_, ?_, ?_⟩
  · show (visitStmts initState tree).totalBranches = branchSum (specFuncsStmts tree)
    rw [htb]
    simp [initState]
  · show (visitStmts initState tree).complexity = lcSum (specFuncsStmts tree)
    rw [hcx]
    simp [initState]
  · rw [hfuncs]
    exact specFuncsStmts_lc tree

/-- A nested-function example: `outer` contains `inner` (which has an `if`
and a `while`) and its own `if`. -/
def astNested : List Stmt :=
  [Stmt.functionDef "outer" ⟨[], Option.none, [], Option.none⟩
    [Stmt.functionDef "inner" ⟨[], Option.none, [], Option.none⟩
       [Stmt.ifStmt (Expr.name "x") [Stmt.passStmt] [],
        Stmt.whileStmt (Expr.name "y") [Stmt.passStmt] []]
       Option.none false 2 4,
     Stmt.ifStmt (Expr.name "z") [Stmt.passStmt] []]
    Option.none false 1 5]

/-- Witness for C10: on `astNested` the traversal records `inner` (2
branches, complexity 3) before `outer` (1 branch, complexity 2 — the inner
function's two branches do not leak into it), the totals fold both entries,
and the inner entry satisfies `local_complexity = 1 + branches`. -/
theorem c10_nested_functions_witness :
    (analyzeTree astNested).functions = specFuncsStmts astNested
    ∧ (analyzeTree astNested).functions.map
        (fun fi => (fi.fname, fi.branches, fi.localComplexity))
        = [("inner", 2, 3), ("outer", 1, 2)]
    ∧ (analyzeTree astNested).branches = 3
    ∧ (analyzeTree astNested).complexity = 5
    ∧ (⟨"inner", [], ["Any"], 2, 4, 2, 3⟩ : FuncInfo).localComplexity
        = 1 + (⟨"inner", [], ["Any"], 2, 4, 2, 3⟩ : FuncInfo).branches := by
  refine ⟨(c10_nested_functions astNested).1, by decide, ?_, ?_, ?_⟩
  · rw [(c10_nested_functions astNested).2.1]
    decide
  · rw [(c10_nested_functions astNested).2.2.1]
    decide
  · exact (c10_nested_functions astNested).2.2.2 _ (by decide)

theorem cacheAppend_eq {α : Type} (c : List α) (x : α) :
    cacheAppend c x = c.drop (c.length + 1 - 10) ++ [x] := by
  show (c ++ [x]).drop ((c ++ [x]).length - 10) = _
  have hlen : (c ++ [x]).length = c.length + 1 := by simp
  rw [hlen, List.drop_append_eq_append_drop]
  have h0 : c.length + 1 - 10 - c.length = 0 := by omega
  rw [h0]
  simp

/-- C6: for every sequence of appends to a cache (both `last_analyses` and
`last_prompts` use the same append-then-truncate step `cacheAppend`,
starting from the empty list), after each append the cache holds at most 10
entries, its last element is the entry just appended, and when the cap of
10 is reached the element dropped is the oldest one (the head): the new
cache is the old cache's tail plus the new entry. -/
theorem c6_cache_invariant {α : Type} (xs : List α) (x : α) :
    (cacheAppend (xs.foldl cacheAppend []) x).length ≤ 10
    ∧ (cacheAppend (xs.foldl cacheAppend []) x).getLast? = some x
    ∧ ((xs.foldl cacheAppend []).length = 10 →
        cacheAppend (xs.foldl cacheAppend []) x
          = (xs.foldl cacheAppend []).tail ++ [x]) := by
  refine ⟨?_, ?_, ?_⟩
  · rw [cacheAppend_eq]
    simp only [List.length_append, List.length_drop, List.length_singleton]
    omega
  · rw [cacheAppend_eq]
    exact List.getLast?_concat _
  · intro h10
    rw [cacheAppend_eq, h10]
    norm_num

/-- Witness for C6: after ten appends the cache is full (`0..9`); appending
`10` keeps the length at 10, makes `10` the last element, and drops the
oldest entry `0`. -/
theorem c6_cache_invariant_witness :
    ((List.range 10).foldl cacheAppend []).length = 10
    ∧ cacheAppend ((List.range 10).foldl cacheAppend []) 10
        = ((List.range 10).foldl cacheAppend []).tail ++ [10]
    ∧ (cacheAppend ((List.range 10).foldl cacheAppend []) 10).length ≤ 10
    ∧ (cacheAppend ((List.range 10).foldl cacheAppend []) 10).getLast? = some 10 :=
  ⟨by decide,
   (c6_cache_invariant (List.range 10) 10).2.2 (by decide),
   (c6_cache_invariant (List.range 10) 10).1,
   (c6_cache_invariant (List.range 10) 10).2.1⟩

/-- A successful backend response with no content, used as a stub where a
claim quantifies over backend behavior. -/
def emptyOut : AnalysisOutput := ⟨[], [], [], 0, 0, []⟩

/-- A dispatch stub: every backend call succeeds with `emptyOut`. -/
def stubOkDispatch : String → List Char → Except String AnalysisOutput :=
  fun _ _ => .ok emptyOut

/-- A backend map whose three backends all succeed with `emptyOut`. -/
def stubBackends : BackendMap :=
  ⟨fun _ => .ok emptyOut, fun _ => .ok emptyOut, fun _ => .ok emptyOut⟩

/-- A minimal non-blank code string. -/
def cCode : List Char := ['x']

theorem analyzeFunctionWith_language
    (d : String → List Char → Except String AnalysisOutput)
    (lang : String) (code : List Char) (n : Normalized)
    (h : analyzeFunctionWith d lang code = .ok n) : n.language = pyLower lang := by
  unfold analyzeFunctionWith at h
  cases hv : validateCodeInput code <;> rw [hv] at h
  · cases hd : d lang code <;> rw [hd] at h
    · exact absurd h (by simp)
    · injection h with h2
      rw [← h2]
  · exact absurd h (by simp)

/-- C1, counterexample: `analyze_function` with tag `"js"` and with tag
`"typescript"` (same code, same successful backend) returns analyses whose
`language` fields are `"js"` and `"typescript"` respectively — not the same
normalized value, refuting the claim that both tags carry the same
normalized `language` field. -/
theorem c1_language_field_counterexample :
    (analyzeFunctionWith stubOkDispatch "js" cCode).map Normalized.language
      = Except.ok "js"
    ∧ (analyzeFunctionWith stubOkDispatch "typescript" cCode).map Normalized.language
      = Except.ok "typescript"
    ∧ ("js" : String) ≠ "typescript" := by
  refine ⟨by decide, by decide, by decide⟩

/-- C1, amended: `dispatch("js", code)` and `dispatch("typescript", code)`
route to the same backend (the typescript one, over the same child-process
transport), but the `AnalysisResult` returned by `analyze_function` carries
the lower-cased input tag as its `language` field, so the field is `"js"`
for the one tag and `"typescript"` for the other rather than one common
normalized value. -/
theorem c1_alias_routing_amended (B : BackendMap)
    (d : String → List Char → Except String AnalysisOutput) (code : List Char) :
    dispatchAnalyzeWith B "js" code = dispatchAnalyzeWith B "typescript" code
    ∧ dispatchTransport "js" = dispatchTransport "typescript"
    ∧ (∀ n, analyzeFunctionWith d "js" code = .ok n → n.language = "js")
    ∧ (∀ n, analyzeFunctionWith d "typescript" code = .ok n
        → n.language = "typescript") := by
  refine ⟨rfl, by decide, ?_, ?_⟩
  · intro n h
    exact analyzeFunctionWith_language d "js" code n h
  · intro n h
    exact analyzeFunctionWith_language d "typescript" code n h

/-- Witness for C1 (amended): at the stub backends and the one-character
code, both tags dispatch to the same value and the `"js"`-tagged analysis
carries language `"js"`. -/
theorem c1_alias_routing_amended_witness :
    dispatchAnalyzeWith stubBackends "js" cCode
      = dispatchAnalyzeWith stubBackends "typescript" cCode
    ∧ (⟨"js", [], [], [], 0, 0, [], emptyOut⟩ : Normalized).language = "js" :=
  ⟨(c1_alias_routing_amended stubBackends stubOkDispatch cCode).1,
   (c1_alias_routing_amended stubBackends stubOkDispatch cCode).2.2.1
     ⟨"js", [], [], [], 0, 0, [], emptyOut⟩ (by decide)⟩

/-- The normalized analysis of the C7 scenario program under language tag
`"python"` — the analysis dict `analyze_function("python", code)` returns
when the python backend runs the source analyzer on that program. -/
def pyNormC7 : Normalized :=
  { language := "python", functions := (analyzeTree astC7).functions,
    inputs := (analyzeTree astC7).inputs, outputs := (analyzeTree astC7).outputs,
    complexity := (analyzeTree astC7).complexity,
    branches := (analyzeTree astC7).branches,
    sideEffects := (analyzeTree astC7).sideEffects, raw := analyzeTree astC7 }

/-- C2: `build_prompt(flow, "auto")` consults `framework_map` (whose table
does say python maps to pytest), but it looks the language up under
`flow["metrics"]["language"]`, a key `summarize_flow` never writes
(`flowMetrics` has no `"language"` entry), so the lookup always uses the
default `"unknown"` and the resolved framework is `"generic"` for every
flow produced by `summarize_flow` — in particular for the python analysis
of the C7 scenario program, which the claim (and the table) say should
resolve to `"pytest"`. -/
theorem c2_auto_framework_always_generic :
    (buildPrompt (summarizeFlow pyNormC7) "auto").testFramework = "generic"
    ∧ (∀ n : Normalized,
        (buildPrompt (summarizeFlow n) "auto").testFramework = "generic")
    ∧ framework_map.lookup "python" = some "pytest"
    ∧ (∀ n : Normalized, (summarizeFlow n).metrics.lookup "language" = Option.none) := by
  have hmet : ∀ n : Normalized,
      (summarizeFlow n).metrics.lookup "language" = Option.none := by
    intro n
    show (flowMetrics n).lookup "language" = Option.none
    simp [flowMetrics, List.lookup]
  have hgen : ∀ n : Normalized,
      (buildPrompt (summarizeFlow n) "auto").testFramework = "generic" := by
    intro n
    show (if ("auto" : String) = "auto" then
        (framework_map.lookup (dictGetStr (summarizeFlow n).metrics "language" "unknown")).getD "generic"
      else "auto") = "generic"
    rw [if_pos rfl]
    unfold dictGetStr
    rw [hmet n]
    decide
  exact ⟨hgen pyNormC7, hgen, by decide, hmet⟩

/-- C3, counterexample: the `_dispatch_analyze` branch for python invokes
the analyzer through `subprocess.run` — a child process fed over stdin —
not in-process: the transport of the python branch is `childProcess`, which
differs from the `inProcess` transport the claim asserts. -/
theorem c3_transport_counterexample :
    dispatchTransport "python" = TransportKind.childProcess
    ∧ dispatchTransport "python" ≠ TransportKind.inProcess := by
  refine ⟨by decide, by decide⟩

/-- C3, amended: for python the dispatcher routes to the python backend via
a child-process invocation of `runtimes/python/analyzer.py` with the code
delivered over stdin; when that child process runs the analyzer to
completion on non-blank code, the value `dispatch("python", code)` returns
is exactly the Source Analyzer's `analyze(code)` result (the JSON
round-trip is the identity), so the in-process/child-process distinction is
the only correction the claim needs. -/
theorem c3_python_dispatch_amended
    (j t : List Char → Except String AnalysisOutput)
    (parse : List Char → Except String (List Stmt)) (code : List Char)
    (h : code.all isPySpace = false) :
    dispatchTransport "python" = TransportKind.childProcess
    ∧ dispatchAnalyzeWith ⟨j, fun c => pythonBackendRun c (parse c), t⟩
        "python" code = analyzeSrc (parse code) := by
  refine ⟨by decide, ?_⟩
  show pythonBackendRun code (parse code) = analyzeSrc (parse code)
  unfold pythonBackendRun
  rw [h]
  simp

/-- Witness for C3 (amended): at a concrete non-blank code, a parser stub
returning the C7 tree and stub external backends, dispatching python yields
the analyzer's result for that tree. -/
theorem c3_python_dispatch_amended_witness :
    (['x'] : List Char).all isPySpace = false
    ∧ dispatchAnalyzeWith
        ⟨fun _ => .ok emptyOut,
         fun c => pythonBackendRun c (.ok astC7),
         fun _ => .ok emptyOut⟩ "python" ['x']
      = analyzeSrc (.ok astC7) :=
  ⟨by decide,
   (c3_python_dispatch_amended (fun _ => .ok emptyOut) (fun _ => .ok emptyOut)
     (fun _ => .ok astC7) ['x'] (by decide)).2⟩

/-- C4: for every invocation of `run_full_pipeline` — over all runtime
availability snapshots, stage-1 results and stage-2/3 call behaviors — the
returned `meta.success` is true if and only if `steps_completed` equals 3
and the aggregated `errors` list is empty, and `steps_completed` equals the
number of stage slots (analysis, flow, prompt) whose result carries no
error. -/
theorem c4_success_iff (avail : Bool) (language : String)
    (analysisRes : Except String Normalized)
    (flowCall : Normalized → StageCall FlowSummary)
    (promptCall : FlowSummary → StageCall PromptArtifact) :
    ((runFullPipelineWith avail language analysisRes flowCall promptCall).meta.success = true
      ↔ ((runFullPipelineWith avail language analysisRes flowCall promptCall).meta.stepsCompleted = 3
         ∧ (runFullPipelineWith avail language analysisRes flowCall promptCall).errors = []))
    ∧ (runFullPipelineWith avail language analysisRes flowCall promptCall).meta.stepsCompleted
        = stageOkCount (runFullPipelineWith avail language analysisRes flowCall promptCall) := by
  cases analysisRes with
  | error e => simp [runFullPipelineWith, stageOkCount]
  | ok a =>
      cases hfc : flowCall a with
      | returns v =>
          cases v with
          | ok f =>
              cases hpc : promptCall f with
              | returns w =>
                  cases w with
                  | ok p => simp [runFullPipelineWith, stageOkCount, hfc, hpc]
                  | error e2 => simp [runFullPipelineWith, stageOkCount, hfc, hpc]
              | raises m => simp [runFullPipelineWith, stageOkCount, hfc, hpc]
          | error e2 => simp [runFullPipelineWith, stageOkCount, hfc]
      | raises m => simp [runFullPipelineWith, stageOkCount, hfc]

/-- C5: in `run_full_pipeline`, whenever stage 2 fails (it returns an error
dict or raises), stage 3 is never attempted — the result does not depend on
the prompt-stage behavior at all — and the prompt slot carries the
synthetic skipped error, recorded in `errors`; every exception raised
inside stage 2 or stage 3 is caught and converted into an `{error}` payload
in the corresponding slot (so it never propagates: `runFullPipelineWith` is
a total function returning a `PipelineResult` whose slots are plain
payloads). -/
theorem c5_stage2_failure_skips_stage3 (avail : Bool) (language : String)
    (a : Normalized) (flowCall : Normalized → StageCall FlowSummary) :
    (∀ e, (flowCall a = StageCall.returns (Except.error e)
            ∨ flowCall a = StageCall.raises e) →
      ∀ pc1 pc2 : FlowSummary → StageCall PromptArtifact,
        runFullPipelineWith avail language (.ok a) flowCall pc1
          = runFullPipelineWith avail language (.ok a) flowCall pc2
        ∧ (runFullPipelineWith avail language (.ok a) flowCall pc1).prompt
            = some (.error "Skipped due to flow summary failure")
        ∧ "Prompt generation skipped"
            ∈ (runFullPipelineWith avail language (.ok a) flowCall pc1).errors)
    ∧ (∀ m (pc : FlowSummary → StageCall PromptArtifact),
        flowCall a = StageCall.raises m →
        (runFullPipelineWith avail language (.ok a) flowCall pc).flow
          = some (.error ("Flow summary failed: " ++ m)))
    ∧ (∀ f m (pc : FlowSummary → StageCall PromptArtifact),
        flowCall a = StageCall.returns (.ok f) → pc f = StageCall.raises m →
        (runFullPipelineWith avail language (.ok a) flowCall pc).prompt
          = some (.error ("Prompt build failed: " ++ m))) := by
  refine ⟨?_, ?_, ?_⟩
  · intro e he pc1 pc2
    rcases he with h | h <;>
      exact ⟨by simp [runFullPipelineWith, h],
             by simp [runFullPipelineWith, h],
             by simp [runFullPipelineWith, h]⟩
  · intro m pc h
    simp [runFullPipelineWith, h]
  · intro f m pc hf hp
    simp [runFullPipelineWith, hf, hp]

/-- Witness for C5: with a stage 2 that raises `"boom"`, the pipeline
result is identical under two different stage-3 behaviors, the prompt slot
carries the skipped error, and the flow slot carries the converted
exception payload. -/
theorem c5_stage2_failure_witness :
    runFullPipelineWith true "python" (.ok pyNormC7)
        (fun _ => StageCall.raises "boom") (fun _ => StageCall.raises "p1")
      = runFullPipelineWith true "python" (.ok pyNormC7)
        (fun _ => StageCall.raises "boom")
        (fun _ => StageCall.returns (.error "p2"))
    ∧ (runFullPipelineWith true "python" (.ok pyNormC7)
        (fun _ => StageCall.raises "boom")
        (fun _ => StageCall.raises "p1")).prompt
      = some (.error "Skipped due to flow summary failure")
    ∧ (runFullPipelineWith true "python" (.ok pyNormC7)
        (fun _ => StageCall.raises "boom")
        (fun _ => StageCall.raises "p1")).flow
      = some (.error ("Flow summary failed: " ++ "boom")) :=
  ⟨((c5_stage2_failure_skips_stage3 true "python" pyNormC7
      (fun _ => StageCall.raises "boom")).1 "boom" (Or.inr rfl)
      (fun _ => StageCall.raises "p1")
      (fun _ => StageCall.returns (.error "p2"))).1,
   ((c5_stage2_failure_skips_stage3 true "python" pyNormC7
      (fun _ => StageCall.raises "boom")).1 "boom" (Or.inr rfl)
      (fun _ => StageCall.raises "p1")
      (fun _ => StageCall.raises "p1")).2.1,
   (c5_stage2_failure_skips_stage3 true "python" pyNormC7
      (fun _ => StageCall.raises "boom")).2.1 "boom"
      (fun _ => StageCall.raises "p1") rfl⟩

theorem all_replicate_false {p : Char → Bool} {c : Char} (n : Nat)
    (hn : 0 < n) (hp : p c = false) :
    (List.replicate n c).all p = false := by
  cases n with
  | zero => omega
  | succ m => simp [List.replicate_succ, List.all_cons, hp]

theorem utf8Len_replicate (n : Nat) (c : Char) :
    utf8Len (List.replicate n c) = n * utf8CharLen c := by
  unfold utf8Len
  rw [List.map_replicate, List.sum_replicate, smul_eq_mul]

/-- A 25001-character Python string of the two-byte character `é`: its
UTF-8 encoding is 50002 bytes — over the claimed 50,000-byte limit — while
its `len` is 25001 characters, under the source's 50,000-character check. -/
def bigCode : List Char := List.replicate 25001 'é'

theorem bigCode_validate : validateCodeInput bigCode = Option.none := by
  have h1 : bigCode.isEmpty = false := by
    show (List.replicate 25001 'é').isEmpty = false
    rw [List.replicate_succ]
    rfl
  have h2 : bigCode.all isPySpace = false := by
    show (List.replicate 25001 'é').all isPySpace = false
    exact all_replicate_false 25001 (by omega) (by decide)
  have h3 : bigCode.length = 25001 := List.length_replicate _ _
  unfold validateCodeInput
  rw [h1, h2, h3]
  norm_num

/-- C9, counterexample: `bigCode` exceeds 50,000 bytes (its UTF-8 length is
50002), yet `analyze_function` does not return a validation error for it —
the dispatcher runs and its (stubbed successful) response is returned —
because the source checks `len(code) > 50000`, which counts the 25001
characters, not bytes. -/
theorem analyzeFunctionWith_ok
    (d : String → List Char → Except String AnalysisOutput)
    (lang : String) (code : List Char) (r : AnalysisOutput)
    (hv : validateCodeInput code = Option.none) (hd : d lang code = .ok r) :
    analyzeFunctionWith d lang code = .ok
      { language := pyLower lang, functions := r.functions, inputs := r.inputs,
        outputs := r.outputs, complexity := r.complexity, branches := r.branches,
        sideEffects := r.sideEffects, raw := r } := by
  unfold analyzeFunctionWith
  rw [hv, hd]

theorem c9_byte_limit_counterexample :
    utf8Len bigCode > 50000
    ∧ analyzeFunctionWith stubOkDispatch "python" bigCode
        = .ok ⟨"python", [], [], [], 0, 0, [], emptyOut⟩ := by
  constructor
  · show utf8Len (List.replicate 25001 'é') > 50000
    rw [utf8Len_replicate]
    decide
  · exact analyzeFunctionWith_ok stubOkDispatch "python" bigCode emptyOut
      bigCode_validate rfl

/-- C9, amended: if the code is empty or whitespace-only, or if it exceeds
50,000 characters (code points — Python `len`, not bytes), the call returns
a validation error and the dispatcher/backends are never invoked: the
result is independent of the dispatch function and is an `{error}`
payload. -/
theorem c9_validation_amended
    (d1 d2 : String → List Char → Except String AnalysisOutput)
    (lang : String) (code : List Char)
    (h : code.isEmpty = true ∨ code.all isPySpace = true ∨ code.length > 50000) :
    analyzeFunctionWith d1 lang code = analyzeFunctionWith d2 lang code
    ∧ ∃ e, analyzeFunctionWith d1 lang code = .error e := by
  have hv : ∃ e, validateCodeInput code = some e := by
    unfold validateCodeInput
    split_ifs with h1 h2 h3
    · exact ⟨_, rfl⟩
    · exact ⟨_, rfl⟩
    · exact ⟨_, rfl⟩
    · rcases h with h | h | h
      · exact absurd h h1
      · exact absurd h h2
      · exact absurd h h3
  obtain ⟨e, hv⟩ := hv
  unfold analyzeFunctionWith
  rw [hv]
  exact ⟨rfl, ⟨e, rfl⟩⟩

/-- Witness for C9 (amended): a single-space code string is whitespace-only;
the call's result is the same under two different dispatch stubs and is a
validation error. -/
theorem c9_validation_amended_witness :
    (([' '] : List Char).isEmpty = true ∨ ([' '] : List Char).all isPySpace = true
      ∨ ([' '] : List Char).length > 50000)
    ∧ analyzeFunctionWith stubOkDispatch "python" [' ']
        = analyzeFunctionWith (fun _ _ => .error "never") "python" [' ']
    ∧ ∃ e, analyzeFunctionWith stubOkDispatch "python" [' '] = .error e :=
  ⟨Or.inr (Or.inl (by decide)),
   (c9_validation_amended stubOkDispatch (fun _ _ => .error "never") "python"
     [' '] (Or.inr (Or.inl (by decide)))).1,
   (c9_validation_amended stubOkDispatch (fun _ _ => .error "never") "python"
     [' '] (Or.inr (Or.inl (by decide)))).2⟩

end Cielo
